import Mathlib

/-!
# Verification of the cchooked hook engine

A shallow embedding of the cchooked rule compilation/evaluation engine and
action-execution layer (Rust sources under `src/`), together with theorems
settling the specification's claims about it.

External effects (regex matching, filesystem, subprocesses, environment
variables, clock) are modelled as explicit inputs threaded into the
functions, following the design note that global reads should be "explicit
inputs threaded into Context construction rather than ambient lookups".
-/

namespace Cchooked

/- ## String helpers

Models of the Rust standard-library string/path operations used by the
sources.  `replaceChars` models `str::replace` (replace every
non-overlapping occurrence, scanning left to right) for non-empty patterns;
every call site in the sources uses a non-empty literal pattern. -/

/-- One fuel-indexed step of `str::replace` over character lists.  The fuel
starts at the haystack length, which bounds the number of steps. -/
def replaceAux (pat rep : List Char) : Nat → List Char → List Char
  | 0, s => s
  | fuel + 1, s =>
    if pat ≠ [] ∧ pat.isPrefixOf s then
      rep ++ replaceAux pat rep fuel (s.drop pat.length)
    else
      match s with
      | [] => []
      | c :: rest => c :: replaceAux pat rep fuel rest

/-- Model of Rust `str::replace` for non-empty patterns: replaces every
non-overlapping occurrence of `pat` in `s` by `rep`, left to right. -/
def replaceStr (s pat rep : String) : String :=
  String.mk (replaceAux pat.data rep.data s.data.length s.data)

/-- `str::starts_with` over character lists (kept executable for the
kernel, unlike the position-based core `String.startsWith`). -/
def strStartsWith (s p : String) : Bool :=
  p.data.isPrefixOf s.data

/-- `str::ends_with` over character lists. -/
def strEndsWith (s p : String) : Bool :=
  p.data.reverse.isPrefixOf s.data.reverse

/-- Drops the first `n` characters of a string. -/
def strDrop (s : String) (n : Nat) : String :=
  String.mk (s.data.drop n)

/-- Model of Unix `Path::is_absolute` (`std::path`): a path is absolute
iff it starts with `/`. -/
def pathIsAbsolute (p : String) : Bool :=
  strStartsWith p "/"

/-- Model of `PathBuf::join` followed by `to_string_lossy` on Unix paths:
an absolute argument replaces the base; otherwise the argument is appended
with a `/` separator as needed. -/
def pathJoin (base arg : String) : String :=
  if pathIsAbsolute arg then arg
  else if base = "" then arg
  else if strEndsWith base "/" then base ++ arg
  else base ++ "/" ++ arg

/-- Model of Unix `Path::parent` composed with `to_string_lossy`, for
paths without trailing separators: `""` and `"/"` have no parent; a path
with no `/` has parent `""`; otherwise everything from the last `/` on is
dropped (the parent of `/a` is `/`). -/
def parentPath (p : String) : Option String :=
  if p = "" ∨ p = "/" then none
  else
    match (p.data.reverse.dropWhile fun c => c ≠ '/') with
    | [] => some ""
    | _ :: rest =>
      if rest = [] then some "/"
      else some (String.mk rest.reverse)

/-- Hex digit used by the JSON string escaper. -/
def hexDigit (n : Nat) : Char :=
  if n < 10 then Char.ofNat (48 + n) else Char.ofNat (87 + n)

/-- Model of `serde_json`'s string escaping: `"` and `\` are escaped,
control characters get their short escapes or a `\u00XX` form, everything
else is emitted as is. -/
def escapeJsonChar (c : Char) : List Char :=
  if c = '"' then ['\\', '"']
  else if c = '\\' then ['\\', '\\']
  else if c = '\n' then ['\\', 'n']
  else if c = '\r' then ['\\', 'r']
  else if c = '\t' then ['\\', 't']
  else if c = Char.ofNat 8 then ['\\', 'b']
  else if c = Char.ofNat 12 then ['\\', 'f']
  else if c.toNat < 32 then
    ['\\', 'u', '0', '0', hexDigit (c.toNat / 16), hexDigit (c.toNat % 16)]
  else [c]

/-- Escapes a string the way `serde_json::to_string` does. -/
def escapeJson (s : String) : String :=
  String.mk (s.data.flatMap escapeJsonChar)

/- ## Regex model

The engine delegates pattern matching to the external `regex_lite` crate.
A compiled regex is modelled by its observable behaviour: a matching
predicate on haystacks and a first-occurrence replacement function
(`Regex::replace`, used by the transform rewrite). -/

/-- Model of a compiled `regex_lite::Regex`: its match predicate and its
replace-first-occurrence function (`replace_one rep haystack`). -/
structure Regex where
  is_match : String → Bool
  replace_one : String → String → String

/- ## Enumerations (src/src/rule.rs) -/

/-- Hook event types that trigger rule evaluation (`EventType`). -/
inductive EventType where
  | preToolUse
  | postToolUse
deriving DecidableEq, BEq, Repr

namespace EventType

/-- `EventType::as_str` (src/src/rule.rs). -/
def as_str : EventType → String
  | .preToolUse => "PreToolUse"
  | .postToolUse => "PostToolUse"

end EventType

/-- Action types that can be performed when a rule matches (`ActionType`). -/
inductive ActionType where
  | block
  | transform
  | run
  | log
deriving DecidableEq, BEq, Repr

/-- Log output format for the Log action (`LogFormat`). -/
inductive LogFormat where
  | text
  | json
deriving DecidableEq, BEq, Repr

namespace LogFormat

/-- `LogFormat::from_str` (src/src/rule.rs): defaults to `Text` for
unknown values. -/
def from_str (s : String) : LogFormat :=
  if s = "json" then .json else .text

end LogFormat

/-- Behavior when a Run action command fails (`OnErrorBehavior`). -/
inductive OnErrorBehavior where
  | ignore
  | fail
deriving DecidableEq, BEq, Repr

namespace OnErrorBehavior

/-- `OnErrorBehavior::from_str` (src/src/rule.rs): defaults to `Ignore`
for unknown values. -/
def from_str (s : String) : OnErrorBehavior :=
  if s = "fail" then .fail else .ignore

end OnErrorBehavior

/- ## Errors (src/src/error.rs) -/

/-- Error types for the cchooked hook engine (`CchookedError`). -/
inductive CchookedError where
  | configNotFound (path : String)
  | configParseError (path detail : String)
  | inputParseError (detail : String)
  | regexError (rule_name pattern detail : String)
  | invalidEventType (value : String) (valid : List String)
  | invalidActionType (value : String) (valid : List String)
  | logFileMissing (rule_name : String)
  | ioError (detail : String)
deriving DecidableEq, Repr

namespace CchookedError

/-- `CchookedError::exit_code` (src/src/error.rs): 0 for a missing config
(hooks are optional), 2 for every other error.  The source documents that
exit code 1 is intentionally not used because the caller treats it as
non-blocking. -/
def exit_code : CchookedError → Int
  | .configNotFound _ => 0
  | _ => 2

/-- `CchookedError::is_warning` (src/src/error.rs). -/
def is_warning : CchookedError → Bool
  | .configNotFound _ => true
  | _ => false

end CchookedError

/-- The process exit status chosen by `main` (src/src/main.rs lines
153-173) when `run()` returns an error: a missing config file warns and
exits 0; every other error prints `Error: ...` and exits 1.  Note that
`main` never consults `CchookedError::exit_code`. -/
def main_error_exit : CchookedError → Int
  | .configNotFound _ => 0
  | _ => 1

/- ## Invocation facts (src/src/rule.rs) -/

/-- Input parameters for a tool invocation (`ToolInput`). -/
structure ToolInput where
  command : Option String
  file_path : Option String
deriving DecidableEq, Repr

/-- Hook input containing tool name and parameters (`HookInput`). -/
structure HookInput where
  tool_name : String
  tool_input : ToolInput
deriving DecidableEq, Repr

/- ## Context (src/src/context.rs) -/

/-- Execution context containing extracted input values and environment
information (`Context`). -/
structure Context where
  command : String
  file_path : String
  file_dir : String
  tool_name : String
  branch : String
  workspace_root : String
deriving DecidableEq, Repr

/-- The ambient environment read during `Context::from_input`, modelled as
an explicit input: the `CCHOOKED_BRANCH` override, the result of asking
git for the current branch (`none` on any failure), the
`CLAUDE_PROJECT_DIR` variable, and the process current directory. -/
structure Env where
  cchooked_branch : Option String
  git_branch : Option String
  claude_project_dir : Option String
  current_dir : Option String
deriving DecidableEq, Repr

/-- `get_current_branch` (src/src/context.rs): the `CCHOOKED_BRANCH`
override wins; otherwise the branch git reports, `none` on failure. -/
def get_current_branch (env : Env) : Option String :=
  match env.cchooked_branch with
  | some b => some b
  | none => env.git_branch

namespace Context

/-- `Context::from_input` (src/src/context.rs): extracts command, file
path and its parent directory, tool name, the detected git branch (empty
on failure) and the workspace root (`CLAUDE_PROJECT_DIR` if non-empty,
else the current directory). -/
def from_input (env : Env) (input : HookInput) : Context :=
  let file_path := input.tool_input.file_path.getD ""
  let file_dir :=
    if file_path = "" then ""
    else (parentPath file_path).getD ""
  let fallback_root := env.current_dir.getD ""
  let workspace_root :=
    match env.claude_project_dir with
    | some s => if s = "" then fallback_root else s
    | none => fallback_root
  { command := input.tool_input.command.getD ""
    file_path := file_path
    file_dir := file_dir
    tool_name := input.tool_name
    branch := (get_current_branch env).getD ""
    workspace_root := workspace_root }

/-- `Context::expand` (src/src/context.rs): the chained `str::replace`
calls substituting the six placeholders in source order. -/
def expand (ctx : Context) (template : String) : String :=
  replaceStr
    (replaceStr
      (replaceStr
        (replaceStr
          (replaceStr
            (replaceStr template "${command}" ctx.command)
            "${file_path}" ctx.file_path)
          "${file_dir}" ctx.file_dir)
        "${tool_name}" ctx.tool_name)
      "${branch}" ctx.branch)
    "${workspace_root}" ctx.workspace_root

end Context

/- ## Output (src/src/output.rs) -/

/-- Hook execution output containing exit code and optional messages
(`Output`). -/
structure Output where
  exit_code : Int
  stdout : Option String
  stderr : Option String
deriving DecidableEq, Repr

/-- `block_output` (src/src/output.rs): exit code 2 with the optional
message on the error channel. -/
def block_output (message : Option String) : Output :=
  { exit_code := 2, stdout := none, stderr := message }

/-- `no_match_output` (src/src/output.rs): exit code 0, nothing on either
channel. -/
def no_match_output : Output :=
  { exit_code := 0, stdout := none, stderr := none }

/-- The `serde_json` serialization of `TransformOutput`
(src/src/output.rs): struct fields in declaration order, no whitespace. -/
def transform_payload (event_name updated_command : String) : String :=
  "\x7b\"hookSpecificOutput\":\x7b\"hookEventName\":\"" ++ escapeJson event_name ++
    "\",\"permissionDecision\":\"allow\",\"updatedInput\":\x7b\"command\":\"" ++
    escapeJson updated_command ++ "\"\x7d\x7d\x7d"

/-- `transform_output` (src/src/output.rs): exit code 0 with the
serialized transform payload on the primary channel. -/
def transform_output (event_name updated_command : String) : Output :=
  { exit_code := 0
    stdout := some (transform_payload event_name updated_command)
    stderr := none }

/- ## Compiled rules (src/src/rule.rs) -/

/-- Conditional filters for rule matching (`WhenCondition`). -/
structure WhenCondition where
  command_patterns : List Regex
  file_path_patterns : List Regex
  branch_patterns : List Regex

/-- Transform rule configuration for command replacement
(`TransformRule`). -/
structure TransformRule where
  command_pattern : Option Regex
  command_replacement : Option String

/-- A compiled rule ready for evaluation (`Rule`).

The `working_dir` field: Modelled from the spec: the snapshot's rule.rs
declares `Rule` without a working-directory template, yet
`execute_action` (src/src/action.rs line 54) reads
`match_result.working_dir` and the spec lists `working_dir` among the
rule record's fields, so the field is carried here. -/
structure Rule where
  name : String
  event : EventType
  matcher : Regex
  action : ActionType
  priority : Int
  message : Option String
  when : WhenCondition
  transform : Option TransformRule
  run_command : Option String
  working_dir : Option String
  on_error : OnErrorBehavior
  log_file : Option String
  log_format : LogFormat

/-- Rule evaluation result containing matched rule information
(`MatchResult`).  Carries `working_dir` for the same reason as `Rule`. -/
structure MatchResult where
  rule_name : String
  action : ActionType
  message : Option String
  transform : Option TransformRule
  run_command : Option String
  working_dir : Option String
  on_error : OnErrorBehavior
  log_file : Option String
  log_format : LogFormat

/-- The `MatchResult` built from a matched rule inside `evaluate_rules`
(src/src/rule.rs lines 352-364): a field-for-field copy. -/
def Rule.toMatchResult (rule : Rule) : MatchResult :=
  { rule_name := rule.name
    action := rule.action
    message := rule.message
    transform := rule.transform
    run_command := rule.run_command
    working_dir := rule.working_dir
    on_error := rule.on_error
    log_file := rule.log_file
    log_format := rule.log_format }

/-- `matches_command` (src/src/rule.rs): an empty pattern list matches
unconditionally, otherwise some pattern must match. -/
def matches_command (patterns : List Regex) (command : String) : Bool :=
  if patterns.isEmpty then true
  else patterns.any fun p => p.is_match command

/-- `matches_file_path` (src/src/rule.rs). -/
def matches_file_path (patterns : List Regex) (file_path : String) : Bool :=
  if patterns.isEmpty then true
  else patterns.any fun p => p.is_match file_path

/-- `matches_branch` (src/src/rule.rs). -/
def matches_branch (patterns : List Regex) (current_branch : String) : Bool :=
  if patterns.isEmpty then true
  else patterns.any fun p => p.is_match current_branch

/-- The loop body of `evaluate_rules` (src/src/rule.rs lines 315-365):
scans the rules in order, skipping a rule when its event, tool-name
matcher, or any non-empty condition category fails; the `memo` argument
is the `context: Option<Context>` local that memoizes `Context::from_input`
across iterations (built when a branch condition first needs it, or
post-hoc on a match). -/
def evaluateRulesAux (env : Env) (event : EventType) (input : HookInput) :
    List Rule → Option Context → Option (MatchResult × Context)
  | [], _ => none
  | rule :: rest, memo =>
    if rule.event ≠ event then
      evaluateRulesAux env event input rest memo
    else if ¬ rule.matcher.is_match input.tool_name then
      evaluateRulesAux env event input rest memo
    else if ¬ rule.when.command_patterns.isEmpty ∧
        ¬ matches_command rule.when.command_patterns
            (input.tool_input.command.getD "") then
      evaluateRulesAux env event input rest memo
    else if ¬ rule.when.file_path_patterns.isEmpty ∧
        ¬ matches_file_path rule.when.file_path_patterns
            (input.tool_input.file_path.getD "") then
      evaluateRulesAux env event input rest memo
    else if rule.when.branch_patterns.isEmpty then
      some (rule.toMatchResult, memo.getD (Context.from_input env input))
    else
      let ctx := memo.getD (Context.from_input env input)
      if matches_branch rule.when.branch_patterns ctx.branch then
        some (rule.toMatchResult, ctx)
      else
        evaluateRulesAux env event input rest (some ctx)

/-- `evaluate_rules` (src/src/rule.rs lines 308-368): first matching
rule's result plus the context, or `none`. -/
def evaluate_rules (env : Env) (rules : List Rule) (event : EventType)
    (input : HookInput) : Option (MatchResult × Context) :=
  evaluateRulesAux env event input rules none

/-- Instrumentation of `evaluate_rules`: the number of times the
evaluation pass executes `Context::from_input`, following the same
control flow as `evaluateRulesAux` (a call happens exactly where the
memo is consulted while still empty). -/
def evaluateRulesCalls (env : Env) (event : EventType) (input : HookInput) :
    List Rule → Option Context → Nat
  | [], _ => 0
  | rule :: rest, memo =>
    if rule.event ≠ event then
      evaluateRulesCalls env event input rest memo
    else if ¬ rule.matcher.is_match input.tool_name then
      evaluateRulesCalls env event input rest memo
    else if ¬ rule.when.command_patterns.isEmpty ∧
        ¬ matches_command rule.when.command_patterns
            (input.tool_input.command.getD "") then
      evaluateRulesCalls env event input rest memo
    else if ¬ rule.when.file_path_patterns.isEmpty ∧
        ¬ matches_file_path rule.when.file_path_patterns
            (input.tool_input.file_path.getD "") then
      evaluateRulesCalls env event input rest memo
    else if rule.when.branch_patterns.isEmpty then
      if memo.isNone then 1 else 0
    else
      let calls := if memo.isNone then 1 else 0
      let ctx := memo.getD (Context.from_input env input)
      if matches_branch rule.when.branch_patterns ctx.branch then
        calls
      else
        calls + evaluateRulesCalls env event input rest (some ctx)

/- ## Rule configuration (src/src/config.rs) -/

/-- A flexible type that accepts either a single string or an array of
strings (`StringOrVec`). -/
inductive StringOrVec where
  | single (s : String)
  | multiple (v : List String)
deriving DecidableEq, Repr

/-- `StringOrVec::to_vec` (src/src/config.rs). -/
def StringOrVec.to_vec : StringOrVec → List String
  | .single s => [s]
  | .multiple v => v

/-- Conditional filter configuration for rule matching (`WhenConfig`). -/
structure WhenConfig where
  command : Option StringOrVec
  file_path : Option StringOrVec
  branch : Option StringOrVec
deriving DecidableEq, Repr

/-- Configuration for command transformation (`TransformConfig`); the
`command` field is the two-element `[pattern, replacement]` pair. -/
structure TransformConfig where
  command : Option (String × String)
deriving DecidableEq, Repr

/-- Configuration for a single hook rule (`RuleConfig`).  Defaults applied
by the deserializer: `priority = 0`, `on_error = "ignore"`,
`log_format = "text"`.  (The snapshot's config.rs declares no
`working_dir` field; see `Rule.working_dir`.) -/
structure RuleConfig where
  event : String
  matcher : String
  action : String
  priority : Int
  message : Option String
  when : Option WhenConfig
  transform : Option TransformConfig
  command : Option String
  on_error : String
  log_file : Option String
  log_format : String
deriving DecidableEq, Repr

/-- The root configuration (`Config`): rule name/config pairs.  The Rust
source holds them in a `HashMap`, so the order of this list is
unspecified. -/
structure Config where
  rules : List (String × RuleConfig)

/-- The external `regex_lite` compiler, modelled as an explicit input:
`rc pattern` is `Except.error detail` exactly when the pattern is
rejected. -/
def RegexCompiler := String → Except String Regex

/-- `EventType::from_str` (src/src/rule.rs): validates against the closed
set of event names. -/
def EventType.from_str (s : String) : Except CchookedError EventType :=
  if s = "PreToolUse" then .ok .preToolUse
  else if s = "PostToolUse" then .ok .postToolUse
  else .error (.invalidEventType s ["PreToolUse", "PostToolUse"])

/-- `ActionType::from_str` (src/src/rule.rs): validates against the closed
set of action names. -/
def ActionType.from_str (s : String) : Except CchookedError ActionType :=
  if s = "block" then .ok .block
  else if s = "transform" then .ok .transform
  else if s = "run" then .ok .run
  else if s = "log" then .ok .log
  else .error (.invalidActionType s ["block", "transform", "run", "log"])

/-- `compile_regex_with_context` (src/src/rule.rs): wraps a regex
compilation failure in a `RegexError` naming the owning rule and the
offending pattern. -/
def compile_regex_with_context (rc : RegexCompiler) (pattern rule_name : String) :
    Except CchookedError Regex :=
  match rc pattern with
  | .ok r => .ok r
  | .error e => .error (.regexError rule_name pattern e)

/-- The compilation of one `when` category's optional pattern list inside
`compile_rule` (src/src/rule.rs lines 195-214): an absent entry yields no
patterns, otherwise each pattern string is compiled with the rule's name
as error context. -/
def compileWhenList (rc : RegexCompiler) (name : String) :
    Option StringOrVec → Except CchookedError (List Regex)
  | none => pure []
  | some sv => sv.to_vec.mapM fun p => compile_regex_with_context rc p name

/-- The compilation of the optional transform spec inside `compile_rule`
(src/src/rule.rs lines 216-227). -/
def compileTransform (rc : RegexCompiler) (name : String) :
    Option TransformConfig → Except CchookedError (Option TransformRule)
  | none => pure none
  | some tc =>
    match tc.command with
    | none => pure none
    | some (pat, rep) => do
      let r ← compile_regex_with_context rc pat name
      pure (some { command_pattern := some r, command_replacement := some rep })

/-- `compile_rule` (src/src/rule.rs lines 188-249): validates the event
and action strings, compiles the tool matcher, every `when` pattern and
the transform pattern, rejects a `log` rule without a `log_file`, and
otherwise assembles the `Rule` (with `on_error`/`log_format` parsed by
their non-failing `from_str`). -/
def compile_rule (rc : RegexCompiler) (name : String) (config : RuleConfig) :
    Except CchookedError Rule := do
  let event ← EventType.from_str config.event
  let matcher ← compile_regex_with_context rc config.matcher name
  let action ← ActionType.from_str config.action
  let command_patterns ←
    compileWhenList rc name (config.when.bind fun w => w.command)
  let file_path_patterns ←
    compileWhenList rc name (config.when.bind fun w => w.file_path)
  let branch_patterns ←
    compileWhenList rc name (config.when.bind fun w => w.branch)
  let transform ← compileTransform rc name config.transform
  if action = ActionType.log ∧ config.log_file = none then
    throw (.logFileMissing name)
  else
    pure
      { name := name
        event := event
        matcher := matcher
        action := action
        priority := config.priority
        message := config.message
        when :=
          { command_patterns := command_patterns
            file_path_patterns := file_path_patterns
            branch_patterns := branch_patterns }
        transform := transform
        run_command := config.command
        working_dir := none
        on_error := OnErrorBehavior.from_str config.on_error
        log_file := config.log_file
        log_format := LogFormat.from_str config.log_format }

/-- Inserts a rule into a list already sorted by descending priority,
after every rule of priority greater than or equal to its own, so that
repeated insertion is a stable descending sort. -/
def insertRule (r : Rule) : List Rule → List Rule
  | [] => [r]
  | x :: xs =>
    if x.priority ≥ r.priority then x :: insertRule r xs
    else r :: x :: xs

/-- The stable sort by descending priority performed by `compile_rules`
(`rules.sort_by(|a, b| b.priority.cmp(&a.priority))`, a stable sort in
Rust), realized as a stable insertion sort. -/
def sortRules (rules : List Rule) : List Rule :=
  rules.foldl (fun acc r => insertRule r acc) []

/-- `compile_rules` (src/src/rule.rs lines 254-264): compiles every rule
(first failure aborts) and returns them sorted by priority, highest
first. -/
def compile_rules (rc : RegexCompiler) (config : Config) :
    Except CchookedError (List Rule) := do
  let rules ← config.rules.mapM fun nr => compile_rule rc nr.1 nr.2
  pure (sortRules rules)

/- ## Action execution (src/src/action.rs) -/

/-- The observable result of `Command::output()` on the spawned shell:
the child ran and exited successfully, ran and exited unsuccessfully with
the given captured stderr, or failed to start with the given error
description. -/
inductive RunResult where
  | success
  | exited (stderr : String)
  | spawnFailed (err : String)
deriving DecidableEq, Repr

/-- The external effects consulted by `execute_action`, modelled as
explicit inputs: directory existence, the subprocess runner (given the
expanded command and the optional working directory), the formatted
timestamp, the `HOME` variable, and the outcomes of the log-file
directory creation, open and write (`some errmsg` on failure, keyed by
the path involved). -/
structure World where
  dir_exists : String → Bool
  run : String → Option String → RunResult
  timestamp : String
  home : Option String
  create_dir_all : String → Option String
  open_append : String → Option String
  write_line : String → String → Option String

/-- `resolve_working_dir` (src/src/action.rs lines 10-39): no template,
or a template expanding to the empty string, falls back to the context's
`file_dir` (unset when that is empty); an absolute expansion is used
verbatim; a relative expansion is joined onto the workspace root when
non-empty, else onto `file_dir` (a bare relative path when both are
empty). -/
def resolve_working_dir (working_dir : Option String) (context : Context) :
    Option String :=
  match working_dir with
  | some template =>
    let expanded := context.expand template
    if expanded = "" then
      if context.file_dir = "" then none
      else some context.file_dir
    else if pathIsAbsolute expanded then
      some expanded
    else
      let base :=
        if context.workspace_root = "" then context.file_dir
        else context.workspace_root
      some (pathJoin base expanded)
  | none =>
    if context.file_dir = "" then none
    else some context.file_dir

/-- The `serde_json::json!` log record built by the Log arm of
`execute_action` (src/src/action.rs lines 117-126); `serde_json`'s
default map orders keys alphabetically: command, event, file_path,
timestamp, tool. -/
def logJsonEntry (timestamp : String) (event : EventType) (context : Context) :
    String :=
  "\x7b\"command\":\"" ++ escapeJson context.command ++
    "\",\"event\":\"" ++ escapeJson event.as_str ++
    "\",\"file_path\":\"" ++ escapeJson context.file_path ++
    "\",\"timestamp\":\"" ++ escapeJson timestamp ++
    "\",\"tool\":\"" ++ escapeJson context.tool_name ++ "\"\x7d"

/-- The text log line built by the Log arm of `execute_action`
(src/src/action.rs lines 105-116): `[timestamp] EVENT tool: content`,
where content is the command if non-empty, else the file path. -/
def logTextEntry (timestamp : String) (event : EventType) (context : Context) :
    String :=
  let log_content :=
    if context.command = "" then context.file_path else context.command
  "[" ++ timestamp ++ "] " ++ event.as_str ++ " " ++ context.tool_name ++
    ": " ++ log_content

/-- `execute_action` (src/src/action.rs lines 44-165), returning the
`Output` together with the list of `Warning: ...` lines printed to the
process stderr along the way (the `eprintln!` side channel).

The Transform arm is Modelled from the spec: the snapshot's
`execute_action` matches only Block, Run and Log, so the Transform arm is
missing from src; per §4.4, when both a rewrite pattern and replacement
are present, a single regex substitution is performed over
`facts.command` (carried as `context.command`) and the result is emitted
via `transform_output` tagged with the event name; an incomplete rewrite
spec behaves as an allow-with-no-output. -/
def execute_action (w : World) (match_result : MatchResult)
    (context : Context) (event : EventType) : Output × List String :=
  match match_result.action with
  | .block =>
    let message := match_result.message.map fun m => context.expand m
    (block_output message, [])
  | .transform =>
    match match_result.transform with
    | some tr =>
      match tr.command_pattern, tr.command_replacement with
      | some pattern, some replacement =>
        (transform_output event.as_str
          (pattern.replace_one replacement context.command), [])
      | _, _ => (no_match_output, [])
    | none => (no_match_output, [])
  | .run =>
    match match_result.run_command with
    | some cmd_template =>
      let cmd := context.expand cmd_template
      let working_dir := resolve_working_dir match_result.working_dir context
      if working_dir.isSome ∧ ¬ w.dir_exists (working_dir.getD "") then
        match match_result.on_error with
        | .ignore => (no_match_output, [])
        | .fail =>
          (block_output (some ("Working directory does not exist: " ++
            working_dir.getD "")), [])
      else
        match w.run cmd working_dir with
        | .success => (no_match_output, [])
        | .exited stderr =>
          match match_result.on_error with
          | .ignore => (no_match_output, [])
          | .fail => (block_output (some ("Command failed: " ++ stderr)), [])
        | .spawnFailed e =>
          match match_result.on_error with
          | .ignore => (no_match_output, [])
          | .fail =>
            (block_output (some ("Failed to run command: " ++ e)), [])
    | none => (no_match_output, [])
  | .log =>
    let timestamp := w.timestamp
    let log_entry :=
      match match_result.log_format with
      | .text => logTextEntry timestamp event context
      | .json => logJsonEntry timestamp event context
    match match_result.log_file with
    | some file_path =>
      let expanded_path :=
        if strStartsWith file_path "~" then
          match w.home with
          | some home => home ++ strDrop file_path 1
          | none => file_path
        else file_path
      let dirWarnings :=
        match parentPath expanded_path with
        | some parent =>
          match w.create_dir_all parent with
          | some e => ["Warning: failed to create log directory: " ++ e]
          | none => []
        | none => []
      let fileWarnings :=
        match w.open_append expanded_path with
        | some e =>
          ["Warning: failed to open log file '" ++ expanded_path ++ "': " ++ e]
        | none =>
          match w.write_line expanded_path log_entry with
          | some e => ["Warning: failed to write log entry: " ++ e]
          | none => []
      (no_match_output, dirWarnings ++ fileWarnings)
    | none => (no_match_output, [])

/-- Whether an `Except` result is a success. -/
def exceptOk {ε α : Type} : Except ε α → Bool
  | .ok _ => true
  | .error _ => false

/- ## String lemmas -/

theorem replaceAux_nil (pat rep : List Char) :
    ∀ fuel, replaceAux pat rep fuel [] = [] := by
  intro fuel
  cases fuel with
  | zero => rfl
  | succ n =>
    rw [replaceAux]
    cases pat with
    | nil => simp
    | cons c cs => simp [List.isPrefixOf]

theorem replaceAux_self (c : Char) (cs rep : List Char) :
    replaceAux (c :: cs) rep (cs.length + 1) (c :: cs) = rep := by
  rw [replaceAux]
  simp [List.isPrefixOf_iff_prefix, replaceAux_nil, List.drop_length]

/-- Replacing a non-empty pattern inside itself yields the replacement:
`"x".replace("x", r) = r`. -/
theorem replaceStr_self (pat rep : String) (h : pat ≠ "") :
    replaceStr pat pat rep = rep := by
  have hd : pat.data ≠ [] := fun hnil => h (by cases pat; simp_all)
  cases hp : pat.data with
  | nil => exact absurd hp hd
  | cons c cs =>
    show String.mk (replaceAux pat.data rep.data pat.data.length pat.data) = rep
    rw [hp, List.length_cons, replaceAux_self]

/-- The last five substitutions of `Context::expand`; used to state the
amended expansion claim: the value substituted for `${command}` is itself
subject to all the substitutions that come after it in the chain. -/
def expandAfterCommand (ctx : Context) (s : String) : String :=
  replaceStr
    (replaceStr
      (replaceStr
        (replaceStr
          (replaceStr s "${file_path}" ctx.file_path)
          "${file_dir}" ctx.file_dir)
        "${tool_name}" ctx.tool_name)
      "${branch}" ctx.branch)
    "${workspace_root}" ctx.workspace_root

/- ## Evaluation-layer lemmas -/

/-- The per-rule acceptance predicate realized by the evaluation loop:
event equality, tool-name match, and the three condition categories, with
absent facts checked as the empty string and the branch taken from the
built context. -/
def ruleMatches (env : Env) (event : EventType) (input : HookInput)
    (r : Rule) : Bool :=
  decide (r.event = event) &&
  r.matcher.is_match input.tool_name &&
  matches_command r.when.command_patterns (input.tool_input.command.getD "") &&
  matches_file_path r.when.file_path_patterns (input.tool_input.file_path.getD "") &&
  matches_branch r.when.branch_patterns (Context.from_input env input).branch

theorem matches_command_isEmpty {ps : List Regex} {c : String}
    (h : ps.isEmpty = true) : matches_command ps c = true := by
  simp [matches_command, h]

theorem matches_file_path_isEmpty {ps : List Regex} {c : String}
    (h : ps.isEmpty = true) : matches_file_path ps c = true := by
  simp [matches_file_path, h]

theorem matches_branch_isEmpty {ps : List Regex} {c : String}
    (h : ps.isEmpty = true) : matches_branch ps c = true := by
  simp [matches_branch, h]

theorem command_guard_iff (ps : List Regex) (c : String) :
    ((¬ ps.isEmpty = true) ∧ ¬ (matches_command ps c = true)) ↔
      matches_command ps c = false := by
  constructor
  · intro ⟨_, h2⟩; simpa using h2
  · intro h
    refine ⟨fun hemp => ?_, by simp [h]⟩
    rw [matches_command_isEmpty hemp] at h
    cases h

theorem file_path_guard_iff (ps : List Regex) (c : String) :
    ((¬ ps.isEmpty = true) ∧ ¬ (matches_file_path ps c = true)) ↔
      matches_file_path ps c = false := by
  constructor
  · intro ⟨_, h2⟩; simpa using h2
  · intro h
    refine ⟨fun hemp => ?_, by simp [h]⟩
    rw [matches_file_path_isEmpty hemp] at h
    cases h

/-- The evaluation loop is first-match-wins: starting from a memo that is
either empty or the canonical built context, it returns exactly the first
rule accepted by `ruleMatches`, paired with the canonical context. -/
theorem evaluateRulesAux_find (env : Env) (event : EventType) (input : HookInput) :
    ∀ (rules : List Rule) (memo : Option Context),
      (memo = none ∨ memo = some (Context.from_input env input)) →
      evaluateRulesAux env event input rules memo =
        (rules.find? (ruleMatches env event input)).map
          (fun r => (r.toMatchResult, Context.from_input env input)) := by
  intro rules
  induction rules with
  | nil => intro memo _; rfl
  | cons rule rest ih =>
    intro memo hmemo
    have hgetD : memo.getD (Context.from_input env input) = Context.from_input env input := by
      rcases hmemo with h | h <;> simp [h]
    rw [evaluateRulesAux]
    simp only [command_guard_iff, file_path_guard_iff, hgetD]
    by_cases he : rule.event = event
    · by_cases hm : rule.matcher.is_match input.tool_name = true
      · cases hc : matches_command rule.when.command_patterns
            (input.tool_input.command.getD "") with
        | false =>
          rw [List.find?_cons_of_neg _ (by simp [ruleMatches, hc])]
          simp only [he, ne_eq, not_true_eq_false, if_false, hm,
            Bool.not_eq_true, hc, if_true]
          exact ih memo hmemo
        | true =>
          cases hf : matches_file_path rule.when.file_path_patterns
              (input.tool_input.file_path.getD "") with
          | false =>
            rw [List.find?_cons_of_neg _ (by simp [ruleMatches, hf])]
            simp only [he, ne_eq, not_true_eq_false, if_false, hm,
              Bool.not_eq_true, hc, hf, if_true]
            exact ih memo hmemo
          | true =>
            by_cases hb : rule.when.branch_patterns.isEmpty = true
            · have hbm := matches_branch_isEmpty
                (c := (Context.from_input env input).branch) hb
              rw [List.find?_cons_of_pos _ (by simp [ruleMatches, he, hm, hc, hf, hbm])]
              simp [he, hm, hc, hf, hb, hgetD]
            · cases hbm : matches_branch rule.when.branch_patterns
                  (Context.from_input env input).branch with
              | true =>
                rw [List.find?_cons_of_pos _ (by simp [ruleMatches, he, hm, hc, hf, hbm])]
                simp [he, hm, hc, hf, hb, hgetD, hbm]
              | false =>
                rw [List.find?_cons_of_neg _ (by simp [ruleMatches, hbm])]
                simp only [he, ne_eq, not_true_eq_false, if_false, hm,
                  Bool.not_eq_true, hc, hf, hb, if_false, hgetD, hbm]
                exact ih (some (Context.from_input env input)) (Or.inr rfl)
      · rw [List.find?_cons_of_neg _ (by simp [ruleMatches, hm])]
        simp only [he, ne_eq, not_true_eq_false, if_false, hm, Bool.not_eq_true,
          Bool.not_eq_false, if_true]
        exact ih memo hmemo
    · rw [List.find?_cons_of_neg _ (by simp [ruleMatches, he])]
      simp only [he, ne_eq, not_false_eq_true, if_true]
      exact ih memo hmemo

theorem evaluateRulesCalls_some (env : Env) (event : EventType) (input : HookInput) :
    ∀ (rules : List Rule) (ctx : Context),
      evaluateRulesCalls env event input rules (some ctx) = 0 := by
  intro rules
  induction rules with
  | nil => intro ctx; rfl
  | cons rule rest ih =>
    intro ctx
    rw [evaluateRulesCalls]
    simp only [Option.isNone_some, Option.getD_some, Bool.false_eq_true, if_false]
    repeat' split
    all_goals first | rfl | exact ih ctx | simpa using ih ctx

theorem evaluateRulesCalls_le_one (env : Env) (event : EventType) (input : HookInput) :
    ∀ (rules : List Rule),
      evaluateRulesCalls env event input rules none ≤ 1 := by
  intro rules
  induction rules with
  | nil => exact Nat.zero_le 1
  | cons rule rest ih =>
    rw [evaluateRulesCalls]
    simp only [Option.isNone_none, if_true]
    repeat' split
    all_goals first
      | exact ih
      | exact Nat.le_refl 1
      | simp [evaluateRulesCalls_some]

theorem matches_command_iff (ps : List Regex) (fact : String) :
    matches_command ps fact = true ↔
      (ps = [] ∨ ∃ p ∈ ps, p.is_match fact = true) := by
  cases ps <;> simp [matches_command, List.any_eq_true]

theorem matches_file_path_iff (ps : List Regex) (fact : String) :
    matches_file_path ps fact = true ↔
      (ps = [] ∨ ∃ p ∈ ps, p.is_match fact = true) := by
  cases ps <;> simp [matches_file_path, List.any_eq_true]

theorem matches_branch_iff (ps : List Regex) (fact : String) :
    matches_branch ps fact = true ↔
      (ps = [] ∨ ∃ p ∈ ps, p.is_match fact = true) := by
  cases ps <;> simp [matches_branch, List.any_eq_true]

/- ## Concrete instances used by the witnesses -/

/-- A compiled matcher behaving like the regex `^npm`: matches strings
starting with `npm`; replacing its first match substitutes that prefix. -/
def regexNpm : Regex :=
  { is_match := fun s => strStartsWith s "npm"
    replace_one := fun rep s =>
      if strStartsWith s "npm" then rep ++ strDrop s 3 else s }

/-- A compiled matcher behaving like the regex `.*` (always matches). -/
def regexAny : Regex :=
  { is_match := fun _ => true
    replace_one := fun _ s => s }

/-- A deterministic environment snapshot. -/
def env0 : Env :=
  { cchooked_branch := some "main"
    git_branch := none
    claude_project_dir := some "/p"
    current_dir := some "/cwd" }

/-- The spec's scenario input:
`{"tool_name":"Bash","tool_input":{"command":"npm install express"}}`. -/
def input0 : HookInput :=
  { tool_name := "Bash"
    tool_input := { command := some "npm install express", file_path := none } }

/-- A block rule matching `^npm` commands on any tool. -/
def ruleBlock : Rule :=
  { name := "no-npm"
    event := .preToolUse
    matcher := regexAny
    action := .block
    priority := 0
    message := some "use bun"
    when :=
      { command_patterns := [regexNpm]
        file_path_patterns := []
        branch_patterns := [] }
    transform := none
    run_command := none
    working_dir := none
    on_error := .ignore
    log_file := none
    log_format := .text }

/-- A world with no failures: every directory exists, every command
succeeds, every file operation succeeds. -/
def worldOk : World :=
  { dir_exists := fun _ => true
    run := fun _ _ => .success
    timestamp := "2026-01-01T00:00:00+00:00"
    home := some "/home/u"
    create_dir_all := fun _ => none
    open_append := fun _ => none
    write_line := fun _ _ => none }

/-- A world whose log-file operations all fail. -/
def worldLogFail : World :=
  { dir_exists := fun _ => true
    run := fun _ _ => .success
    timestamp := "2026-01-01T00:00:00+00:00"
    home := some "/home/u"
    create_dir_all := fun _ => some "permission denied"
    open_append := fun _ => some "permission denied"
    write_line := fun _ _ => some "disk full" }

/-- A world in which no directory exists. -/
def worldNoDir : World :=
  { worldOk with dir_exists := fun _ => false }

/-- A high-priority variant of `ruleBlock`. -/
def rule10 : Rule := { ruleBlock with name := "high", priority := 10 }

/-- A low-priority variant of `ruleBlock`. -/
def rule1 : Rule := { ruleBlock with name := "low", priority := 1 }

/-- A transform decision rewriting `^npm` to `bun`. -/
def mrTransform : MatchResult :=
  { rule_name := "npm-to-bun"
    action := .transform
    message := none
    transform :=
      some { command_pattern := some regexNpm, command_replacement := some "bun" }
    run_command := none
    working_dir := none
    on_error := .fail
    log_file := none
    log_format := .text }

/-- A run decision with a fixed absolute working directory and the `fail`
policy. -/
def mrRun : MatchResult :=
  { rule_name := "fmt"
    action := .run
    message := none
    transform := none
    run_command := some "echo hi"
    working_dir := some "/missing"
    on_error := .fail
    log_file := none
    log_format := .text }

/-- A log decision writing to a home-relative path. -/
def mrLog : MatchResult :=
  { rule_name := "audit"
    action := .log
    message := none
    transform := none
    run_command := none
    working_dir := none
    on_error := .ignore
    log_file := some "~/logs/audit.log"
    log_format := .text }

/-- A context with command `${branch}`: the substituted value contains a
placeholder handled later in the replace chain. -/
def ctxRecur : Context :=
  { command := "${branch}", file_path := "", file_dir := "", tool_name := "Bash"
    branch := "main", workspace_root := "/w" }

/-- A context with branch `${command}`: the substituted value contains a
placeholder handled earlier in the replace chain. -/
def ctxOrder : Context :=
  { command := "echo", file_path := "", file_dir := "", tool_name := "Bash"
    branch := "${command}", workspace_root := "/w" }

/-- The claim C6 context: file_dir `/p/src`, workspace_root `/p`. -/
def ctxWd : Context :=
  { command := "", file_path := "/p/src/main.rs", file_dir := "/p/src"
    tool_name := "Bash", branch := "main", workspace_root := "/p" }

/-- A context with no file directory. -/
def ctxWdNoFileDir : Context :=
  { command := "", file_path := "", file_dir := ""
    tool_name := "Bash", branch := "main", workspace_root := "/p" }

/-- A context with an empty workspace root. -/
def ctxWdNoRoot : Context :=
  { command := "", file_path := "/p/src/main.rs", file_dir := "/p/src"
    tool_name := "Bash", branch := "main", workspace_root := "" }

/-- A context with neither file directory nor workspace root. -/
def ctxWdBare : Context :=
  { command := "", file_path := "", file_dir := ""
    tool_name := "Bash", branch := "main", workspace_root := "" }

/-- A minimal valid block rule configuration. -/
def cfgBlock : RuleConfig :=
  { event := "PreToolUse", matcher := "Bash", action := "block", priority := 0
    message := some "use bun", when := none, transform := none, command := none
    on_error := "ignore", log_file := none, log_format := "text" }

/-- A regex compiler accepting every pattern. -/
def rcOk : RegexCompiler := fun _ => .ok regexAny

/- ## Step lemmas for the action executor -/

theorem exceptOk_bind {ε α β : Type} (e : Except ε α) (f g : α → Except ε β)
    (h : ∀ a, exceptOk (f a) = exceptOk (g a)) :
    exceptOk (e >>= f) = exceptOk (e >>= g) := by
  cases e with
  | error err => rfl
  | ok a => exact h a

/-- Step lemma: the Transform arm of `execute_action`. -/
theorem execute_action_transform (w : World) (mr : MatchResult)
    (ctx : Context) (event : EventType) (h : mr.action = .transform) :
    execute_action w mr ctx event =
      match mr.transform with
      | some tr =>
        match tr.command_pattern, tr.command_replacement with
        | some pattern, some replacement =>
          (transform_output event.as_str
            (pattern.replace_one replacement ctx.command), [])
        | _, _ => (no_match_output, [])
      | none => (no_match_output, []) := by
  rw [execute_action, h]

/-- Step lemma: the Run arm of `execute_action` for a present command
template, with the world explicit. -/
theorem execute_action_run (mr : MatchResult) (ctx : Context)
    (event : EventType) (tmpl : String)
    (ha : mr.action = .run) (hc : mr.run_command = some tmpl) :
    ∀ v : World, execute_action v mr ctx event =
      (if (resolve_working_dir mr.working_dir ctx).isSome ∧
          ¬ v.dir_exists ((resolve_working_dir mr.working_dir ctx).getD "") then
        match mr.on_error with
        | .ignore => (no_match_output, [])
        | .fail =>
          (block_output (some ("Working directory does not exist: " ++
            (resolve_working_dir mr.working_dir ctx).getD "")), [])
      else
        match v.run (ctx.expand tmpl) (resolve_working_dir mr.working_dir ctx) with
        | .success => (no_match_output, [])
        | .exited stderr =>
          match mr.on_error with
          | .ignore => (no_match_output, [])
          | .fail => (block_output (some ("Command failed: " ++ stderr)), [])
        | .spawnFailed e =>
          match mr.on_error with
          | .ignore => (no_match_output, [])
          | .fail =>
            (block_output (some ("Failed to run command: " ++ e)), [])) := by
  intro v
  rw [execute_action, ha, hc]

/- ## Claim theorems -/

/-- C1: for every matched rule whose action is transform and whose rewrite
spec carries both a pattern and a replacement, executing the decision
yields exit code 0 with the primary channel carrying the
`hookSpecificOutput / permissionDecision "allow" / updatedInput.command`
payload built from the single regex substitution over the command fact;
a transform decision never produces exit code 2. -/
theorem c1_transform_always_allows (w : World) (mr : MatchResult)
    (ctx : Context) (event : EventType) (h : mr.action = .transform) :
    (∀ p rep, mr.transform =
        some { command_pattern := some p, command_replacement := some rep } →
      execute_action w mr ctx event =
        (transform_output event.as_str (p.replace_one rep ctx.command), []) ∧
      (execute_action w mr ctx event).1.stdout =
        some (transform_payload event.as_str (p.replace_one rep ctx.command))) ∧
    (execute_action w mr ctx event).1.exit_code = 0 ∧
    (execute_action w mr ctx event).1.exit_code ≠ 2 := by
  rw [execute_action_transform w mr ctx event h]
  cases ht : mr.transform with
  | none =>
    refine ⟨fun p rep hpr => ?_, rfl, by simp [no_match_output]⟩
    cases hpr
  | some tr =>
    obtain ⟨tp, trep⟩ := tr
    cases tp with
    | none =>
      refine ⟨fun p rep hpr => ?_, rfl, by simp [no_match_output]⟩
      cases Option.some.inj hpr
    | some pat =>
      cases trep with
      | none =>
        refine ⟨fun p rep hpr => ?_, rfl, by simp [no_match_output]⟩
        have h2 := Option.some.inj hpr
        injection h2 with h3 h4
        cases h4
      | some rep0 =>
        refine ⟨fun p rep hpr => ?_, rfl, by simp [transform_output]⟩
        have h2 := Option.some.inj hpr
        injection h2 with h3 h4
        injection h3 with h5
        injection h4 with h6
        subst h5
        subst h6
        exact ⟨rfl, rfl⟩

theorem c1_witness :
    execute_action worldOk mrTransform (Context.from_input env0 input0)
        .preToolUse =
      (transform_output "PreToolUse" "bun install express", []) := by
  have h := ((c1_transform_always_allows worldOk mrTransform
    (Context.from_input env0 input0) .preToolUse rfl).1 regexNpm "bun" rfl).1
  rw [h]
  rfl

/-- C2: the claim says every hard setup failure blocks with exit code 2
and only a missing configuration yields exit 0.  `CchookedError::exit_code`
indeed maps every hard error to 2 and only `ConfigNotFound` to 0, but
`main` never calls it: it exits with 1 on every hard error, contradicting
error.rs's documentation and unit tests.  This theorem evaluates both at
the malformed-input-JSON failure. -/
theorem c2_hard_error_exit_one :
    main_error_exit (.inputParseError "expected value at line 1 column 1") = 1 ∧
    CchookedError.exit_code
      (.inputParseError "expected value at line 1 column 1") = 2 ∧
    main_error_exit (.inputParseError "expected value at line 1 column 1") ≠
      CchookedError.exit_code
        (.inputParseError "expected value at line 1 column 1") ∧
    main_error_exit (.configNotFound ".claude/hooks-rules.toml") = 0 := by
  refine ⟨rfl, rfl, by decide, rfl⟩

/-- C3 counterexample: expanding `${command}` when the command field is
`${branch}` does not yield the literal text `${branch}` — the chained
`str::replace` calls re-expand it to the branch value. -/
theorem c3_counterexample :
    ctxRecur.command = "${branch}" ∧
    ctxRecur.expand "${command}" ≠ "${branch}" ∧
    ctxRecur.expand "${command}" = ctxRecur.branch := by
  refine ⟨rfl, ?_, by decide⟩
  decide

/-- C3 (amended): template expansion substitutes the placeholders in one
fixed order (command, file_path, file_dir, tool_name, branch,
workspace_root); the value substituted for `${command}` is itself subject
to the five later substitutions, so `${command}` = `${branch}` expands to
the branch value, while a placeholder that is substituted at or before the
position of the field it sits in is emitted verbatim (`${branch}` =
`${command}` yields the literal `${command}`). -/
theorem c3_expansion_order (ctx : Context) :
    ctx.expand "${command}" = expandAfterCommand ctx ctx.command ∧
    ctxRecur.expand "${command}" = "main" ∧
    ctxOrder.expand "${branch}" = "${command}" := by
  refine ⟨?_, by decide, by decide⟩
  unfold Context.expand expandAfterCommand
  rw [replaceStr_self _ _ (by decide)]

/-- C4: evaluation scans rules in list order and returns exactly the first
rule passing the event, tool-name and condition filters (zero or one
decision, via `List.find?`); and since `compile_rules` sorts by descending
priority, two rules that both match with priorities 10 and 1 always yield
the priority-10 rule's decision whatever their initial order. -/
theorem c4_first_match_and_priority (env : Env) (event : EventType)
    (input : HookInput) :
    (∀ rules : List Rule,
      evaluate_rules env rules event input =
        (rules.find? (ruleMatches env event input)).map
          (fun r => (r.toMatchResult, Context.from_input env input))) ∧
    (∀ r10 r1 : Rule, r10.priority = 10 → r1.priority = 1 →
      ruleMatches env event input r10 = true →
      ruleMatches env event input r1 = true →
      ∀ rs : List Rule, rs = [r10, r1] ∨ rs = [r1, r10] →
        evaluate_rules env (sortRules rs) event input =
          some (r10.toMatchResult, Context.from_input env input)) := by
  constructor
  · intro rules
    exact evaluateRulesAux_find env event input rules none (Or.inl rfl)
  · intro r10 r1 h10 h1 hm10 hm1 rs hrs
    have hsort : sortRules rs = [r10, r1] := by
      rcases hrs with h | h <;> subst h <;>
        simp [sortRules, insertRule, h10, h1]
    rw [hsort, evaluate_rules,
      evaluateRulesAux_find env event input [r10, r1] none (Or.inl rfl),
      List.find?_cons_of_pos _ hm10]
    rfl

theorem c4_witness :
    evaluate_rules env0 (sortRules [rule1, rule10]) .preToolUse input0 =
      some (rule10.toMatchResult, Context.from_input env0 input0) :=
  (c4_first_match_and_priority env0 .preToolUse input0).2 rule10 rule1 rfl rfl
    (by decide) (by decide) [rule1, rule10] (Or.inr rfl)

/-- C5: under a passing event and tool-name filter, a single rule matches
iff each of the three condition categories is satisfied (AND across
categories), where an empty category is vacuously satisfied and a
non-empty one is satisfied iff at least one of its patterns matches
(OR within a category), with absent command/file-path facts checked as
the empty string. -/
theorem c5_condition_semantics (env : Env) (event : EventType)
    (input : HookInput) (r : Rule)
    (hEvent : r.event = event)
    (hTool : r.matcher.is_match input.tool_name = true) :
    (evaluate_rules env [r] event input).isSome = true ↔
      ((r.when.command_patterns = [] ∨
          ∃ p ∈ r.when.command_patterns,
            p.is_match (input.tool_input.command.getD "") = true) ∧
       (r.when.file_path_patterns = [] ∨
          ∃ p ∈ r.when.file_path_patterns,
            p.is_match (input.tool_input.file_path.getD "") = true) ∧
       (r.when.branch_patterns = [] ∨
          ∃ p ∈ r.when.branch_patterns,
            p.is_match (Context.from_input env input).branch = true)) := by
  rw [evaluate_rules, evaluateRulesAux_find env event input [r] none (Or.inl rfl)]
  rw [← matches_command_iff, ← matches_file_path_iff, ← matches_branch_iff]
  cases hc : matches_command r.when.command_patterns
      (input.tool_input.command.getD "") <;>
    cases hf : matches_file_path r.when.file_path_patterns
        (input.tool_input.file_path.getD "") <;>
    cases hb : matches_branch r.when.branch_patterns
        (Context.from_input env input).branch <;>
    simp [ruleMatches, hEvent, hTool, hc, hf, hb]

theorem c5_witness :
    (evaluate_rules env0 [ruleBlock] .preToolUse input0).isSome = true :=
  (c5_condition_semantics env0 .preToolUse input0 ruleBlock rfl rfl).mpr
    ⟨Or.inr ⟨regexNpm, List.Mem.head _, rfl⟩, Or.inl rfl, Or.inl rfl⟩

/-- C6: working-directory resolution with file_dir `/p/src` and
workspace_root `/p`: no template and the empty-expanding template fall
back to `/p/src` (unset when file_dir is empty); an absolute expansion is
used verbatim; a relative expansion joins onto the workspace root when
non-empty, else onto file_dir, else stays bare; and `${file_dir}/x`
expands to `/p/src/x`. -/
theorem c6_working_dir_resolution :
    resolve_working_dir none ctxWd = some "/p/src" ∧
    resolve_working_dir (some "") ctxWd = some "/p/src" ∧
    resolve_working_dir none ctxWdNoFileDir = none ∧
    resolve_working_dir (some "") ctxWdNoFileDir = none ∧
    resolve_working_dir (some "/abs") ctxWd = some "/abs" ∧
    resolve_working_dir (some "sub") ctxWd = some "/p/sub" ∧
    resolve_working_dir (some "sub") ctxWdNoRoot = some "/p/src/sub" ∧
    resolve_working_dir (some "sub") ctxWdBare = some "sub" ∧
    resolve_working_dir (some "${file_dir}/x") ctxWd = some "/p/src/x" := by
  refine ⟨by decide, by decide, by decide, by decide, by decide, by decide,
    by decide, by decide, by decide⟩

/-- C7: for a run decision, a resolved working directory that does not
exist triggers the failure policy without consulting the subprocess
runner; on any run failure (missing directory, unsuccessful exit, or
spawn failure) the `ignore` policy allows with no output while `fail`
blocks with exit 2 and a message carrying the captured stderr behind the
`Command failed` marker (or the spawn error description); a successful
command allows with no output. -/
theorem c7_run_failure_policy (w : World) (mr : MatchResult) (ctx : Context)
    (event : EventType) (tmpl : String)
    (ha : mr.action = .run) (hc : mr.run_command = some tmpl) :
    (∀ dir, resolve_working_dir mr.working_dir ctx = some dir →
      w.dir_exists dir = false →
      (∀ f, execute_action { w with run := f } mr ctx event =
        execute_action w mr ctx event) ∧
      (mr.on_error = .ignore →
        execute_action w mr ctx event = (no_match_output, [])) ∧
      (mr.on_error = .fail →
        execute_action w mr ctx event =
          (block_output
            (some ("Working directory does not exist: " ++ dir)), []))) ∧
    ((∀ dir, resolve_working_dir mr.working_dir ctx = some dir →
        w.dir_exists dir = true) →
      (w.run (ctx.expand tmpl) (resolve_working_dir mr.working_dir ctx) =
          .success →
        execute_action w mr ctx event = (no_match_output, [])) ∧
      (∀ s, w.run (ctx.expand tmpl) (resolve_working_dir mr.working_dir ctx) =
          .exited s →
        (mr.on_error = .ignore →
          execute_action w mr ctx event = (no_match_output, [])) ∧
        (mr.on_error = .fail →
          execute_action w mr ctx event =
            (block_output (some ("Command failed: " ++ s)), []))) ∧
      (∀ e, w.run (ctx.expand tmpl) (resolve_working_dir mr.working_dir ctx) =
          .spawnFailed e →
        (mr.on_error = .ignore →
          execute_action w mr ctx event = (no_match_output, [])) ∧
        (mr.on_error = .fail →
          execute_action w mr ctx event =
            (block_output (some ("Failed to run command: " ++ e)), [])))) := by
  have step := execute_action_run mr ctx event tmpl ha hc
  constructor
  · intro dir hdir hex
    have hcond : ∀ v : World, v.dir_exists = w.dir_exists →
        ((resolve_working_dir mr.working_dir ctx).isSome ∧
          ¬ v.dir_exists ((resolve_working_dir mr.working_dir ctx).getD "")) := by
      intro v hv
      rw [hdir, hv]
      exact ⟨rfl, by simp [hex]⟩
    refine ⟨fun f => ?_, fun hi => ?_, fun hf => ?_⟩
    · rw [step { w with run := f }, step w,
        if_pos (hcond { w with run := f } rfl), if_pos (hcond w rfl)]
    · rw [step w, if_pos (hcond w rfl), hi]
    · rw [step w, if_pos (hcond w rfl), hf, hdir]
      rfl
  · intro hall
    have hcond : ¬ ((resolve_working_dir mr.working_dir ctx).isSome ∧
        ¬ w.dir_exists ((resolve_working_dir mr.working_dir ctx).getD "")) := by
      cases hres : resolve_working_dir mr.working_dir ctx with
      | none => simp
      | some dir => simp [hall dir hres]
    refine ⟨fun hs => ?_,
      fun s hs => ⟨fun hi => ?_, fun hf => ?_⟩,
      fun e hs => ⟨fun hi => ?_, fun hf => ?_⟩⟩ <;>
      rw [step w, if_neg hcond, hs] <;>
      first | rfl | rw [hi] | rw [hf]

theorem c7_witness :
    execute_action worldNoDir mrRun ctxWd .preToolUse =
      (block_output (some "Working directory does not exist: /missing"), []) := by
  have h := ((c7_run_failure_policy worldNoDir mrRun ctxWd .preToolUse
    "echo hi" rfl rfl).1 "/missing" (by decide) rfl).2.2 rfl
  rw [h]
  rfl

/-- C8: within one evaluation pass the Context is built at most once even
if several rules carry branch conditions; and whenever evaluation returns
a match, the accompanying Context is the one built from the input facts,
even when the matching rule had no branch filter. -/
theorem c8_context_memoized (env : Env) (event : EventType)
    (input : HookInput) (rules : List Rule) :
    evaluateRulesCalls env event input rules none ≤ 1 ∧
    (∀ mr ctx, evaluate_rules env rules event input = some (mr, ctx) →
      ctx = Context.from_input env input) := by
  refine ⟨evaluateRulesCalls_le_one env event input rules, ?_⟩
  intro mr ctx h
  rw [evaluate_rules,
    evaluateRulesAux_find env event input rules none (Or.inl rfl)] at h
  cases hfind : rules.find? (ruleMatches env event input) with
  | none => rw [hfind] at h; cases h
  | some r =>
    rw [hfind] at h
    have h2 : (r.toMatchResult, Context.from_input env input) = (mr, ctx) :=
      Option.some.inj h
    exact (congrArg Prod.snd h2).symm

theorem c8_witness :
    evaluateRulesCalls env0 .preToolUse input0 [ruleBlock] none ≤ 1 ∧
    Context.from_input env0 input0 = Context.from_input env0 input0 := by
  have h := c8_context_memoized env0 .preToolUse input0 [ruleBlock]
  exact ⟨h.1, h.2 ruleBlock.toMatchResult (Context.from_input env0 input0) rfl⟩

/-- C9: a log decision always yields allow with nothing on either channel
(exit 0), for every world — log-write failures only produce warnings and
never change the outcome. -/
theorem c9_log_always_allows (w : World) (mr : MatchResult) (ctx : Context)
    (event : EventType) (h : mr.action = .log) :
    (execute_action w mr ctx event).1 = no_match_output ∧
    (execute_action w mr ctx event).1.exit_code = 0 ∧
    ∀ w' : World, (execute_action w' mr ctx event).1 =
      (execute_action w mr ctx event).1 := by
  have key : ∀ v : World, (execute_action v mr ctx event).1 = no_match_output := by
    intro v
    rw [execute_action, h]
    cases mr.log_file <;> rfl
  exact ⟨key w, by rw [key w]; rfl, fun w' => by rw [key w', key w]⟩

theorem c9_witness :
    (execute_action worldLogFail mrLog ctxWd .preToolUse).1 = no_match_output ∧
    (execute_action worldLogFail mrLog ctxWd .preToolUse).1.exit_code = 0 ∧
    (execute_action worldOk mrLog ctxWd .preToolUse).1 =
      (execute_action worldLogFail mrLog ctxWd .preToolUse).1 := by
  have h := c9_log_always_allows worldLogFail mrLog ctxWd .preToolUse rfl
  exact ⟨h.1, h.2.1, h.2.2 worldOk⟩

/-- C10: rule compilation never fails because of an unrecognized
`on_error` or `log_format` string: `OnErrorBehavior::from_str` maps
everything but `fail` to `Ignore`, `LogFormat::from_str` maps everything
but `json` to `Text` (so `Fail`/`JSON` silently fall back), and changing
those two fields never changes whether `compile_rule` succeeds. -/
theorem c10_lenient_from_str (s t : String) (rc : RegexCompiler)
    (name : String) (cfg : RuleConfig) :
    (s ≠ "fail" → OnErrorBehavior.from_str s = .ignore) ∧
    (t ≠ "json" → LogFormat.from_str t = .text) ∧
    OnErrorBehavior.from_str "Fail" = .ignore ∧
    LogFormat.from_str "JSON" = .text ∧
    exceptOk (compile_rule rc name { cfg with on_error := s, log_format := t }) =
      exceptOk (compile_rule rc name cfg) := by
  refine ⟨fun h => by simp [OnErrorBehavior.from_str, h],
    fun h => by simp [LogFormat.from_str, h], by decide, by decide, ?_⟩
  unfold compile_rule
  refine exceptOk_bind _ _ _ fun event => ?_
  refine exceptOk_bind _ _ _ fun matcher => ?_
  refine exceptOk_bind _ _ _ fun action => ?_
  refine exceptOk_bind _ _ _ fun cps => ?_
  refine exceptOk_bind _ _ _ fun fps => ?_
  refine exceptOk_bind _ _ _ fun bps => ?_
  refine exceptOk_bind _ _ _ fun tr => ?_
  split <;> rfl

theorem c10_witness :
    OnErrorBehavior.from_str "Fail" = .ignore ∧
    LogFormat.from_str "JSON" = .text ∧
    exceptOk (compile_rule rcOk "r"
        { cfgBlock with on_error := "Fail", log_format := "JSON" }) =
      exceptOk (compile_rule rcOk "r" cfgBlock) := by
  have h := c10_lenient_from_str "Fail" "JSON" rcOk "r" cfgBlock
  exact ⟨h.1 (by decide), h.2.1 (by decide), h.2.2.2.2⟩

end Cchooked
